import Mathlib

/-!
Shallow embedding of the physics core of the `newton_bevy` simulation
(`src/main.rs`) and verification of its specification claims.

Modelling conventions:

* `f32` arithmetic is idealised as exact rational arithmetic (`ℚ`), matching
  the exact-real reading used by the algebraic claims.
* Bevy `Vec3` becomes the structure `Vec3` of three rationals.
* The Euclidean length `Vec3::length` involves a square root, which does not
  exist inside `ℚ`; passes that call it are parametrised by a length oracle
  `len : Vec3 → ℚ`.  Theorems pin the oracle to the true Euclidean length on
  the vectors they touch via hypotheses of the shape
  `0 < len v` and `(len v) ^ 2 = normSq v`.  `Vec3::length_squared` is exact
  and is embedded directly as `normSq`.
* Body state lives in a total map `Nat → Body`; a pass over `n` bodies only
  ever reads and writes indices below `n`.  `Function.update` models the
  in-place writes of the ECS queries.
* Bevy `iter_combinations` over the query visits ordered index pairs
  `(i, j)` with `i < j`, i.e. every unordered pair of distinct bodies exactly
  once; `pairs n` reproduces that enumeration.
-/

namespace NewtonSim

/-- Three-dimensional vector over the rationals, embedding bevy `Vec3`. -/
@[ext]
structure Vec3 where
  x : ℚ
  y : ℚ
  z : ℚ
deriving DecidableEq

instance : Zero Vec3 :=
  ⟨⟨0, 0, 0⟩⟩

instance : Add Vec3 :=
  ⟨fun a b => ⟨a.x + b.x, a.y + b.y, a.z + b.z⟩⟩

instance : Neg Vec3 :=
  ⟨fun a => ⟨-a.x, -a.y, -a.z⟩⟩

instance : Sub Vec3 :=
  ⟨fun a b => ⟨a.x - b.x, a.y - b.y, a.z - b.z⟩⟩

instance : SMul ℚ Vec3 :=
  ⟨fun c a => ⟨c * a.x, c * a.y, c * a.z⟩⟩

@[simp] theorem Vec3.zero_x : (0 : Vec3).x = 0 := rfl

@[simp] theorem Vec3.zero_y : (0 : Vec3).y = 0 := rfl

@[simp] theorem Vec3.zero_z : (0 : Vec3).z = 0 := rfl

@[simp] theorem Vec3.add_x (a b : Vec3) : (a + b).x = a.x + b.x := rfl

@[simp] theorem Vec3.add_y (a b : Vec3) : (a + b).y = a.y + b.y := rfl

@[simp] theorem Vec3.add_z (a b : Vec3) : (a + b).z = a.z + b.z := rfl

@[simp] theorem Vec3.neg_x (a : Vec3) : (-a).x = -a.x := rfl

@[simp] theorem Vec3.neg_y (a : Vec3) : (-a).y = -a.y := rfl

@[simp] theorem Vec3.neg_z (a : Vec3) : (-a).z = -a.z := rfl

@[simp] theorem Vec3.sub_x (a b : Vec3) : (a - b).x = a.x - b.x := rfl

@[simp] theorem Vec3.sub_y (a b : Vec3) : (a - b).y = a.y - b.y := rfl

@[simp] theorem Vec3.sub_z (a b : Vec3) : (a - b).z = a.z - b.z := rfl

@[simp] theorem Vec3.smul_x (c : ℚ) (a : Vec3) : (c • a).x = c * a.x := rfl

@[simp] theorem Vec3.smul_y (c : ℚ) (a : Vec3) : (c • a).y = c * a.y := rfl

@[simp] theorem Vec3.smul_z (c : ℚ) (a : Vec3) : (c • a).z = c * a.z := rfl

@[simp] theorem Vec3.sub_mk (a1 a2 a3 b1 b2 b3 : ℚ) :
    (⟨a1, a2, a3⟩ - ⟨b1, b2, b3⟩ : Vec3) = ⟨a1 - b1, a2 - b2, a3 - b3⟩ := rfl

@[simp] theorem Vec3.add_mk (a1 a2 a3 b1 b2 b3 : ℚ) :
    (⟨a1, a2, a3⟩ + ⟨b1, b2, b3⟩ : Vec3) = ⟨a1 + b1, a2 + b2, a3 + b3⟩ := rfl

@[simp] theorem Vec3.smul_mk (c a1 a2 a3 : ℚ) :
    (c • (⟨a1, a2, a3⟩ : Vec3)) = ⟨c * a1, c * a2, c * a3⟩ := rfl

@[simp] theorem Vec3.neg_mk (a1 a2 a3 : ℚ) :
    (-(⟨a1, a2, a3⟩ : Vec3)) = ⟨-a1, -a2, -a3⟩ := rfl

instance : AddCommGroup Vec3 where
  add := (· + ·)
  zero := 0
  neg := (- ·)
  sub := (· - ·)
  nsmul := nsmulRec
  zsmul := zsmulRec
  add_assoc a b c := by ext <;> simp <;> ring
  zero_add a := by ext <;> simp
  add_zero a := by ext <;> simp
  add_comm a b := by ext <;> simp <;> ring
  sub_eq_add_neg a b := by ext <;> simp <;> ring
  neg_add_cancel a := by ext <;> simp

instance : Module ℚ Vec3 where
  smul := (· • ·)
  one_smul a := by show (1 : ℚ) • a = a; ext <;> simp
  mul_smul c d a := by show (c * d) • a = c • d • a; ext <;> simp <;> ring
  smul_zero c := by show c • (0 : Vec3) = 0; ext <;> simp
  smul_add c a b := by show c • (a + b) = c • a + c • b; ext <;> simp <;> ring
  add_smul c d a := by show (c + d) • a = c • a + d • a; ext <;> simp <;> ring
  zero_smul a := by show (0 : ℚ) • a = 0; ext <;> simp

/-- Dot product, embedding `Vec3::dot`. -/
def Vec3.dot (a b : Vec3) : ℚ :=
  a.x * b.x + a.y * b.y + a.z * b.z

/-- Squared Euclidean length, embedding `Vec3::length_squared`. -/
def normSq (v : Vec3) : ℚ :=
  v.dot v

theorem Vec3.dot_sub_left (a b c : Vec3) : (a - b).dot c = a.dot c - b.dot c := by
  simp [Vec3.dot]; ring

theorem Vec3.dot_add_left (a b c : Vec3) : (a + b).dot c = a.dot c + b.dot c := by
  simp [Vec3.dot]; ring

theorem Vec3.dot_smul_left (r : ℚ) (a b : Vec3) : (r • a).dot b = r * a.dot b := by
  simp [Vec3.dot]; ring

theorem Vec3.dot_neg_left (a b : Vec3) : (-a).dot b = -(a.dot b) := by
  simp [Vec3.dot]; ring

theorem Vec3.dot_neg_right (a b : Vec3) : a.dot (-b) = -(a.dot b) := by
  simp [Vec3.dot]; ring

theorem normSq_smul (c : ℚ) (v : Vec3) : normSq (c • v) = c ^ 2 * normSq v := by
  simp [normSq, Vec3.dot]; ring

theorem normSq_eq_zero (v : Vec3) : normSq v = 0 ↔ v = 0 := by
  constructor
  · intro h
    have hsum : v.x * v.x + v.y * v.y + v.z * v.z = 0 := by
      simpa [normSq, Vec3.dot] using h
    have hx : v.x * v.x = 0 := by
      linarith [mul_self_nonneg v.x, mul_self_nonneg v.y, mul_self_nonneg v.z]
    have hy : v.y * v.y = 0 := by
      linarith [mul_self_nonneg v.x, mul_self_nonneg v.y, mul_self_nonneg v.z]
    have hz : v.z * v.z = 0 := by
      linarith [mul_self_nonneg v.x, mul_self_nonneg v.y, mul_self_nonneg v.z]
    ext
    · simpa using mul_self_eq_zero.mp hx
    · simpa using mul_self_eq_zero.mp hy
    · simpa using mul_self_eq_zero.mp hz
  · intro h
    subst h
    simp [normSq, Vec3.dot]

/-- A simulated body: the `Transform` translation, the `Velocity`, `Radius`
and `Mass` components attached to each entity spawned in `setup_bodies`. -/
structure Body where
  pos : Vec3
  vel : Vec3
  radius : ℚ
  mass : ℚ
deriving DecidableEq

/-- Exact rational value of the 32-bit float constant `std::f32::consts::PI`
(bit pattern 0x40490FDB), the value used by `setup_bodies` to derive masses. -/
def PI32 : ℚ :=
  13176795 / 4194304

/-- Mass of a body of the given radius: `4.0 * PI * powf(radius, 3.0) / 3.0`
from `setup_bodies` (unit density sphere volume). -/
def volume (radius : ℚ) : ℚ :=
  4 * PI32 * radius ^ 3 / 3

/-- First large planet spawned by `setup_bodies`: radius 1 at (0, 5, 0) with
velocity `-Vec3::X * 0.75`. -/
def bigBody1 : Body :=
  { pos := ⟨0, 5, 0⟩, vel := ⟨-(3 / 4), 0, 0⟩, radius := 1, mass := volume 1 }

/-- Second large planet spawned by `setup_bodies`: radius 1 at (0, -5, 0) with
velocity `Vec3::X * 0.75`. -/
def bigBody2 : Body :=
  { pos := ⟨0, -5, 0⟩, vel := ⟨3 / 4, 0, 0⟩, radius := 1, mass := volume 1 }

/-- Small body number `k` spawned by `setup_bodies`.  The injected random
stream `rand` supplies the seven `rng.gen::<f32>()` draws of the loop body in
their source order: radius draw first, then the three translation draws, then
the three velocity draws (`speed` is the constant 1.0). -/
def smallBody (rand : Nat → ℚ) (k : Nat) : Body :=
  let radius := 1 / 100 + 1 / 10 * rand (7 * k)
  { pos := ⟨rand (7 * k + 1) * 5 - 5 / 2,
            rand (7 * k + 2) * 5 - 5 / 2,
            rand (7 * k + 3) * 5 - 5 / 2⟩
    vel := ⟨rand (7 * k + 4) * 1, rand (7 * k + 5) * 1, rand (7 * k + 6) * 1⟩
    radius := radius
    mass := volume radius }

/-- The population created by `setup_bodies`: the two fixed large planets
followed by `n` randomized small bodies (`n` is 2000 in the source). -/
def setupBodies (rand : Nat → ℚ) (n : Nat) : List Body :=
  bigBody1 :: bigBody2 :: (List.range n).map (smallBody rand)

/-- The `move_system` pass: `transform.translation += v * time.delta_seconds()`
for every body independently. -/
def movePass (dt : ℚ) (st : Nat → Body) : Nat → Body :=
  fun k => { st k with pos := (st k).pos + dt • (st k).vel }

/-- Ordered index pairs `(i, j)` with `i < j < n`: the enumeration order of
bevy `iter_combinations` over a query of `n` bodies, i.e. the nested loops
`i` in `0..n`, `j` in `i+1..n`. -/
def pairs (n : Nat) : List (Nat × Nat) :=
  (List.range n).flatMap fun i =>
    ((List.range n).filter fun j => decide (i < j)).map fun j => (i, j)

/-- The per-pair vector of `gravity_system`:
`v.normalize() * G / f32::powf(v.length(), 2.0) * time.delta_seconds()`,
with `r` standing for `v.length()`.  In exact field arithmetic the scalar
factors collect into a single coefficient of `v`. -/
def gravityDelta (G dt r : ℚ) (v : Vec3) : Vec3 :=
  (1 / r * G / r ^ 2 * dt) • v

/-- New state of the first body of a `gravity_system` pair:
`a_velocity.0 -= b_mass * dir`. -/
def gravityA (len : Vec3 → ℚ) (G dt : ℚ) (a b : Body) : Body :=
  let v := a.pos - b.pos
  { a with vel := a.vel - b.mass • gravityDelta G dt (len v) v }

/-- New state of the second body of a `gravity_system` pair:
`b_velocity.0 += a_mass * dir`. -/
def gravityB (len : Vec3 → ℚ) (G dt : ℚ) (a b : Body) : Body :=
  let v := a.pos - b.pos
  { b with vel := b.vel + a.mass • gravityDelta G dt (len v) v }

/-- One iteration of the `gravity_system` pair loop on bodies `i` and `j`:
`a_velocity.0 -= b_mass * dir; b_velocity.0 += a_mass * dir`. -/
def gravityPairUpdate (len : Vec3 → ℚ) (G dt : ℚ) (st : Nat → Body)
    (i j : Nat) : Nat → Body :=
  Function.update (Function.update st i (gravityA len G dt (st i) (st j)))
    j (gravityB len G dt (st i) (st j))

/-- The whole `gravity_system` pass: the pair loop over all combinations. -/
def gravityPass (len : Vec3 → ℚ) (G dt : ℚ) (n : Nat)
    (st : Nat → Body) : Nat → Body :=
  (pairs n).foldl (fun acc p => gravityPairUpdate len G dt acc p.1 p.2) st

/-- The `collision_system` pass: emit the event `(i, j)` for every combination
whose penetration depth `d = a_radius + b_radius - v.length()` is positive. -/
def collisionPass (len : Vec3 → ℚ) (n : Nat) (st : Nat → Body) :
    List (Nat × Nat) :=
  (pairs n).filter fun p =>
    decide (0 < (st p.1).radius + (st p.2).radius -
      len ((st p.1).pos - (st p.2).pos))

/-- New state of the first body of a drained collision event: positional
de-penetration `new_a_translation = a.translation + dir * mass_ratio * d` and
elastic impulse `new_a_velocity`, from `collision_handler_system`. -/
def resolveA (len : Vec3 → ℚ) (a b : Body) : Body :=
  let v := a.pos - b.pos
  let d := a.radius + b.radius - len v
  let dir := (1 / len v) • v
  let ds := normSq v
  let mfrac := b.mass / (a.mass + b.mass)
  { a with
    pos := a.pos + (mfrac * d) • dir
    vel := a.vel - (2 * b.mass / (a.mass + b.mass) * ((a.vel - b.vel).dot v / ds)) • v }

/-- New state of the second body of a drained collision event:
`new_b_translation = b.translation - dir * (1 - mass_ratio) * d` and
`new_b_velocity`, from `collision_handler_system`. -/
def resolveB (len : Vec3 → ℚ) (a b : Body) : Body :=
  let v := a.pos - b.pos
  let d := a.radius + b.radius - len v
  let dir := (1 / len v) • v
  let ds := normSq v
  let mfrac := b.mass / (a.mass + b.mass)
  { b with
    pos := b.pos - ((1 - mfrac) * d) • dir
    vel := b.vel - (2 * a.mass / (a.mass + b.mass) * ((b.vel - a.vel).dot (-v) / ds)) • (-v) }

/-- Processing of one drained event by `collision_handler_system`: positional
de-penetration followed by the elastic velocity impulse, all four new values
computed from the state current at processing time and then written back,
first body `e.1` and then body `e.2`. -/
def resolveCollision (len : Vec3 → ℚ) (st : Nat → Body) (e : Nat × Nat) :
    Nat → Body :=
  Function.update (Function.update st e.1 (resolveA len (st e.1) (st e.2)))
    e.2 (resolveB len (st e.1) (st e.2))

/-- The whole `collision_handler_system` pass: drain the emitted events in
emission order. -/
def collisionHandlerPass (len : Vec3 → ℚ) (st : Nat → Body)
    (events : List (Nat × Nat)) : Nat → Body :=
  events.foldl (resolveCollision len) st

/-- Degenerate-separation tracking variant of `gravityPairUpdate`.  When the
two positions coincide, `v.normalize()` in `f32` evaluates to NaN (zero times
infinity); the rational embedding cannot represent NaN, so this variant
returns `none` exactly when the source would write non-numeric velocities,
and otherwise agrees with `gravityPairUpdate`.  The source contains no guard:
no branch of `gravity_system` skips or clamps the degenerate pair. -/
def gravityPairUpdateChecked (len : Vec3 → ℚ) (G dt : ℚ) (st : Nat → Body)
    (i j : Nat) : Option (Nat → Body) :=
  if normSq ((st i).pos - (st j).pos) = 0 then none
  else some (gravityPairUpdate len G dt st i j)

/-- Degenerate-separation tracking variant of `resolveCollision`, in the same
sense: `v.normalize()` and the division by `ds = v.length_squared()` are
non-numeric in `f32` when the positions coincide, and
`collision_handler_system` contains no guard against that case. -/
def resolveCollisionChecked (len : Vec3 → ℚ) (st : Nat → Body)
    (e : Nat × Nat) : Option (Nat → Body) :=
  if normSq ((st e.1).pos - (st e.2).pos) = 0 then none
  else some (resolveCollision len st e)

/-- Total momentum of the first `n` bodies: the vector sum of
`mass(i) • velocity(i)`. -/
def totalMomentum (n : Nat) (st : Nat → Body) : Vec3 :=
  ∑ i in Finset.range n, (st i).mass • (st i).vel

/-- The four systems registered by `main` that touch body state. -/
inductive Sys
  | move
  | collision
  | gravity
  | handler
deriving DecidableEq

/-- The ordering constraints declared in `main`:
`collision_system.label("collision").after("move")`,
`gravity_system.after("move")`,
`collision_handler_system.after("collision")`.  A constraint `(a, b)` means
`a` must run before `b` within a step. -/
def declaredOrder : List (Sys × Sys) :=
  [(Sys.move, Sys.collision), (Sys.move, Sys.gravity), (Sys.collision, Sys.handler)]

/-- System `a` runs before system `b` in the schedule `s`. -/
def orderedBefore (s : List Sys) (a b : Sys) : Prop :=
  s.indexOf a < s.indexOf b

instance (s : List Sys) (a b : Sys) : Decidable (orderedBefore s a b) := by
  unfold orderedBefore
  infer_instance

/-- A schedule the bevy executor may choose for one step: each of the four
systems exactly once, respecting every declared ordering constraint. -/
def validSchedule (s : List Sys) : Prop :=
  s.length = 4 ∧ s.Nodup ∧
    Sys.move ∈ s ∧ Sys.collision ∈ s ∧ Sys.gravity ∈ s ∧ Sys.handler ∈ s ∧
    ∀ c ∈ declaredOrder, orderedBefore s c.1 c.2

instance (s : List Sys) : Decidable (validSchedule s) := by
  unfold validSchedule
  infer_instance

theorem mem_pairs (n : Nat) (p : Nat × Nat) :
    p ∈ pairs n ↔ p.1 < p.2 ∧ p.2 < n := by
  simp only [pairs, List.mem_flatMap, List.mem_map, List.mem_filter,
    List.mem_range, decide_eq_true_eq]
  constructor
  · rintro ⟨i, hi, j, ⟨hj, hij⟩, rfl⟩
    exact ⟨hij, hj⟩
  · rintro ⟨h1, h2⟩
    exact ⟨p.1, lt_trans h1 h2, p.2, ⟨h2, h1⟩, rfl⟩

theorem pairs_nodup (n : Nat) : (pairs n).Nodup := by
  unfold pairs
  rw [List.nodup_flatMap]
  constructor
  · intro i _
    refine List.Nodup.map ?_ ((List.nodup_range n).filter _)
    intro a b hab
    simpa using hab
  · refine (List.pairwise_lt_range n).imp ?_
    intro a b hab x hxa hxb
    simp only [List.mem_map, List.mem_filter] at hxa hxb
    obtain ⟨ja, _, rfl⟩ := hxa
    obtain ⟨jb, _, heq⟩ := hxb
    have : b = a := congrArg Prod.fst heq
    omega

theorem gravityPairUpdate_fst (len : Vec3 → ℚ) (G dt : ℚ) (st : Nat → Body)
    (i j : Nat) (hij : i ≠ j) :
    gravityPairUpdate len G dt st i j i = gravityA len G dt (st i) (st j) := by
  unfold gravityPairUpdate
  rw [Function.update_noteq hij, Function.update_same]

theorem gravityPairUpdate_snd (len : Vec3 → ℚ) (G dt : ℚ) (st : Nat → Body)
    (i j : Nat) :
    gravityPairUpdate len G dt st i j j = gravityB len G dt (st i) (st j) := by
  unfold gravityPairUpdate
  rw [Function.update_same]

theorem gravityPairUpdate_other (len : Vec3 → ℚ) (G dt : ℚ) (st : Nat → Body)
    (i j k : Nat) (hki : k ≠ i) (hkj : k ≠ j) :
    gravityPairUpdate len G dt st i j k = st k := by
  unfold gravityPairUpdate
  rw [Function.update_noteq hkj, Function.update_noteq hki]

theorem resolveCollision_fst (len : Vec3 → ℚ) (st : Nat → Body)
    (i j : Nat) (hij : i ≠ j) :
    resolveCollision len st (i, j) i = resolveA len (st i) (st j) := by
  unfold resolveCollision
  rw [Function.update_noteq hij, Function.update_same]

theorem resolveCollision_snd (len : Vec3 → ℚ) (st : Nat → Body)
    (i j : Nat) :
    resolveCollision len st (i, j) j = resolveB len (st i) (st j) := by
  unfold resolveCollision
  rw [Function.update_same]

theorem resolveCollision_other (len : Vec3 → ℚ) (st : Nat → Body)
    (i j k : Nat) (hki : k ≠ i) (hkj : k ≠ j) :
    resolveCollision len st (i, j) k = st k := by
  unfold resolveCollision
  rw [Function.update_noteq hkj, Function.update_noteq hki]

@[simp] theorem gravityA_pos (len : Vec3 → ℚ) (G dt : ℚ) (a b : Body) :
    (gravityA len G dt a b).pos = a.pos := rfl

@[simp] theorem gravityA_radius (len : Vec3 → ℚ) (G dt : ℚ) (a b : Body) :
    (gravityA len G dt a b).radius = a.radius := rfl

@[simp] theorem gravityA_mass (len : Vec3 → ℚ) (G dt : ℚ) (a b : Body) :
    (gravityA len G dt a b).mass = a.mass := rfl

theorem gravityA_vel (len : Vec3 → ℚ) (G dt : ℚ) (a b : Body) :
    (gravityA len G dt a b).vel
      = a.vel - b.mass • gravityDelta G dt (len (a.pos - b.pos)) (a.pos - b.pos) := rfl

@[simp] theorem gravityB_pos (len : Vec3 → ℚ) (G dt : ℚ) (a b : Body) :
    (gravityB len G dt a b).pos = b.pos := rfl

@[simp] theorem gravityB_radius (len : Vec3 → ℚ) (G dt : ℚ) (a b : Body) :
    (gravityB len G dt a b).radius = b.radius := rfl

@[simp] theorem gravityB_mass (len : Vec3 → ℚ) (G dt : ℚ) (a b : Body) :
    (gravityB len G dt a b).mass = b.mass := rfl

theorem gravityB_vel (len : Vec3 → ℚ) (G dt : ℚ) (a b : Body) :
    (gravityB len G dt a b).vel
      = b.vel + a.mass • gravityDelta G dt (len (a.pos - b.pos)) (a.pos - b.pos) := rfl

@[simp] theorem resolveA_radius (len : Vec3 → ℚ) (a b : Body) :
    (resolveA len a b).radius = a.radius := rfl

@[simp] theorem resolveA_mass (len : Vec3 → ℚ) (a b : Body) :
    (resolveA len a b).mass = a.mass := rfl

theorem resolveA_pos (len : Vec3 → ℚ) (a b : Body) :
    (resolveA len a b).pos
      = a.pos + (b.mass / (a.mass + b.mass)
          * (a.radius + b.radius - len (a.pos - b.pos)))
          • ((1 / len (a.pos - b.pos)) • (a.pos - b.pos)) := rfl

theorem resolveA_vel (len : Vec3 → ℚ) (a b : Body) :
    (resolveA len a b).vel
      = a.vel - (2 * b.mass / (a.mass + b.mass)
          * ((a.vel - b.vel).dot (a.pos - b.pos) / normSq (a.pos - b.pos)))
          • (a.pos - b.pos) := rfl

@[simp] theorem resolveB_radius (len : Vec3 → ℚ) (a b : Body) :
    (resolveB len a b).radius = b.radius := rfl

@[simp] theorem resolveB_mass (len : Vec3 → ℚ) (a b : Body) :
    (resolveB len a b).mass = b.mass := rfl

theorem resolveB_pos (len : Vec3 → ℚ) (a b : Body) :
    (resolveB len a b).pos
      = b.pos - ((1 - b.mass / (a.mass + b.mass))
          * (a.radius + b.radius - len (a.pos - b.pos)))
          • ((1 / len (a.pos - b.pos)) • (a.pos - b.pos)) := rfl

theorem resolveB_vel (len : Vec3 → ℚ) (a b : Body) :
    (resolveB len a b).vel
      = b.vel - (2 * a.mass / (a.mass + b.mass)
          * ((b.vel - a.vel).dot (-(a.pos - b.pos)) / normSq (a.pos - b.pos)))
          • (-(a.pos - b.pos)) := rfl

/-- Updating two distinct body slots preserves total momentum whenever the
two new bodies carry the same combined momentum as the two old ones. -/
theorem momentum_update_two (n : Nat) (st : Nat → Body) (i j : Nat)
    (hij : i ≠ j) (hi : i < n) (hj : j < n) (A B : Body)
    (h : A.mass • A.vel + B.mass • B.vel
      = (st i).mass • (st i).vel + (st j).mass • (st j).vel) :
    totalMomentum n (Function.update (Function.update st i A) j B)
      = totalMomentum n st := by
  unfold totalMomentum
  have e2 : ∀ k ∈ Finset.range n,
      ((Function.update (Function.update st i A) j B) k).mass
        • ((Function.update (Function.update st i A) j B) k).vel
      = Function.update (Function.update
          (fun k => (st k).mass • (st k).vel) i (A.mass • A.vel))
          j (B.mass • B.vel) k := by
    intro k _
    rcases eq_or_ne k j with rfl | hkj
    · simp
    · rcases eq_or_ne k i with rfl | hki
      · simp [Function.update_noteq hkj]
      · simp [Function.update_noteq hkj, Function.update_noteq hki]
  rw [Finset.sum_congr rfl e2]
  have hjmem : j ∈ Finset.range n := Finset.mem_range.mpr hj
  have himem : i ∈ Finset.range n \ {j} :=
    Finset.mem_sdiff.mpr ⟨Finset.mem_range.mpr hi, by simp [hij]⟩
  rw [Finset.sum_update_of_mem hjmem, Finset.sum_update_of_mem himem]
  rw [Finset.sum_eq_add_sum_diff_singleton hjmem
      (fun k => (st k).mass • (st k).vel),
    Finset.sum_eq_add_sum_diff_singleton himem
      (fun k => (st k).mass • (st k).vel)]
  have hsw : B.mass • B.vel + A.mass • A.vel
      = (st j).mass • (st j).vel + (st i).mass • (st i).vel := by
    rw [add_comm (B.mass • B.vel), add_comm ((st j).mass • (st j).vel)]
    exact h
  rw [← add_assoc, ← add_assoc, hsw]

/-- The gravity pair interaction exchanges momentum exactly: the combined
momentum of the two updated bodies equals the combined momentum before. -/
theorem gravity_pair_momentum (len : Vec3 → ℚ) (G dt : ℚ) (a b : Body) :
    (gravityA len G dt a b).mass • (gravityA len G dt a b).vel
      + (gravityB len G dt a b).mass • (gravityB len G dt a b).vel
      = a.mass • a.vel + b.mass • b.vel := by
  rw [gravityA_mass, gravityB_mass, gravityA_vel, gravityB_vel]
  ext <;> simp [gravityDelta] <;> ring

theorem gravityPairUpdate_momentum (len : Vec3 → ℚ) (G dt : ℚ) (n : Nat)
    (st : Nat → Body) (i j : Nat) (hij : i ≠ j) (hi : i < n) (hj : j < n) :
    totalMomentum n (gravityPairUpdate len G dt st i j) = totalMomentum n st := by
  unfold gravityPairUpdate
  exact momentum_update_two n st i j hij hi hj _ _
    (gravity_pair_momentum len G dt (st i) (st j))

theorem foldl_gravity_momentum (len : Vec3 → ℚ) (G dt : ℚ) (n : Nat)
    (l : List (Nat × Nat)) (hl : ∀ p ∈ l, p.1 ≠ p.2 ∧ p.1 < n ∧ p.2 < n) :
    ∀ st : Nat → Body,
      totalMomentum n
        (l.foldl (fun acc p => gravityPairUpdate len G dt acc p.1 p.2) st)
      = totalMomentum n st := by
  induction l with
  | nil => intro st; rfl
  | cons p t ih =>
    intro st
    have hp := hl p (List.mem_cons_self p t)
    rw [List.foldl_cons,
      ih (fun q hq => hl q (List.mem_cons_of_mem p hq)),
      gravityPairUpdate_momentum len G dt n st p.1 p.2 hp.1 hp.2.1 hp.2.2]

/-- The two-planet state: body 0 is `bigBody1`, body 1 is `bigBody2`. -/
def demoSt : Nat → Body :=
  fun k => if k = 0 then bigBody1 else bigBody2

/-- C1: for every unique unordered pair of bodies (a, b) with
`position(a) ≠ position(b)`, the gravity pass updates exactly the two
velocities as `velocity(a) -= mass(b) * G / r² * dt * dir` and
`velocity(b) += mass(a) * G / r² * dt * dir`, where `v = position(a) −
position(b)`, `r = |v|` and `dir = v / r`; positions and all other bodies
are untouched. -/
theorem gravity_pair_update_formula (len : Vec3 → ℚ) (G dt : ℚ)
    (st : Nat → Body) (i j : Nat) (hij : i ≠ j)
    (hpos : (st i).pos ≠ (st j).pos)
    (hr : 0 < len ((st i).pos - (st j).pos))
    (hlen : len ((st i).pos - (st j).pos) ^ 2
      = normSq ((st i).pos - (st j).pos)) :
    (gravityPairUpdate len G dt st i j i).vel
      = (st i).vel - ((st j).mass * G / len ((st i).pos - (st j).pos) ^ 2 * dt)
          • ((1 / len ((st i).pos - (st j).pos)) • ((st i).pos - (st j).pos))
    ∧ (gravityPairUpdate len G dt st i j j).vel
      = (st j).vel + ((st i).mass * G / len ((st i).pos - (st j).pos) ^ 2 * dt)
          • ((1 / len ((st i).pos - (st j).pos)) • ((st i).pos - (st j).pos))
    ∧ (gravityPairUpdate len G dt st i j i).pos = (st i).pos
    ∧ (gravityPairUpdate len G dt st i j j).pos = (st j).pos
    ∧ ∀ k, k ≠ i → k ≠ j → gravityPairUpdate len G dt st i j k = st k := by
  refine ⟨?_, ?_, ?_, ?_, ?_⟩
  · rw [gravityPairUpdate_fst len G dt st i j hij]
    unfold gravityA gravityDelta
    ext <;> simp <;> ring
  · rw [gravityPairUpdate_snd len G dt st i j]
    unfold gravityB gravityDelta
    ext <;> simp <;> ring
  · rw [gravityPairUpdate_fst len G dt st i j hij]
    rfl
  · rw [gravityPairUpdate_snd len G dt st i j]
    rfl
  · intro k hki hkj
    exact gravityPairUpdate_other len G dt st i j k hki hkj

/-- Witness for C1 at the two-planet state with the true distance 10. -/
theorem gravity_pair_update_formula_witness :
    (gravityPairUpdate (fun _ => 10) 1 1 demoSt 0 1 0).vel
      = (demoSt 0).vel - ((demoSt 1).mass * 1 / 10 ^ 2 * 1)
          • ((1 / 10 : ℚ) • ((demoSt 0).pos - (demoSt 1).pos))
    ∧ (gravityPairUpdate (fun _ => 10) 1 1 demoSt 0 1 1).vel
      = (demoSt 1).vel + ((demoSt 0).mass * 1 / 10 ^ 2 * 1)
          • ((1 / 10 : ℚ) • ((demoSt 0).pos - (demoSt 1).pos))
    ∧ (gravityPairUpdate (fun _ => 10) 1 1 demoSt 0 1 0).pos = (demoSt 0).pos
    ∧ (gravityPairUpdate (fun _ => 10) 1 1 demoSt 0 1 1).pos = (demoSt 1).pos
    ∧ ∀ k, k ≠ 0 → k ≠ 1 → gravityPairUpdate (fun _ => 10) 1 1 demoSt 0 1 k
        = demoSt k :=
  gravity_pair_update_formula (fun _ => 10) 1 1 demoSt 0 1
    (by decide)
    (by norm_num [demoSt, bigBody1, bigBody2])
    (by norm_num)
    (by norm_num [demoSt, bigBody1, bigBody2, normSq, Vec3.dot])

/-- C2: for every pair processed by the gravity pass, the momentum change
imparted to the first body is the exact negation of that imparted to the
second; hence the vector sum of `mass(i) • velocity(i)` over all bodies is
unchanged by a gravity-only step. -/
theorem gravity_momentum_conserved :
    (∀ (len : Vec3 → ℚ) (G dt : ℚ) (st : Nat → Body) (i j : Nat), i ≠ j →
      (st i).mass • ((gravityPairUpdate len G dt st i j i).vel - (st i).vel)
        = -((st j).mass
            • ((gravityPairUpdate len G dt st i j j).vel - (st j).vel)))
    ∧ ∀ (len : Vec3 → ℚ) (G dt : ℚ) (n : Nat) (st : Nat → Body),
        totalMomentum n (gravityPass len G dt n st) = totalMomentum n st := by
  constructor
  · intro len G dt st i j hij
    rw [gravityPairUpdate_fst len G dt st i j hij,
      gravityPairUpdate_snd len G dt st i j, gravityA_vel, gravityB_vel]
    ext <;> simp [gravityDelta] <;> ring
  · intro len G dt n st
    unfold gravityPass
    refine foldl_gravity_momentum len G dt n (pairs n) ?_ st
    intro p hp
    have h := (mem_pairs n p).mp hp
    exact ⟨Nat.ne_of_lt h.1, lt_trans h.1 h.2, h.2⟩

/-- Witness for C2 at the two-planet state. -/
theorem gravity_momentum_conserved_witness :
    (demoSt 0).mass
        • ((gravityPairUpdate (fun _ => 10) 1 1 demoSt 0 1 0).vel
            - (demoSt 0).vel)
      = -((demoSt 1).mass
          • ((gravityPairUpdate (fun _ => 10) 1 1 demoSt 0 1 1).vel
              - (demoSt 1).vel)) :=
  gravity_momentum_conserved.1 (fun _ => 10) 1 1 demoSt 0 1 (by decide)

theorem dot_self_eq_normSq (v : Vec3) : v.dot v = normSq v := rfl

theorem dot_flip_neg (a b v : Vec3) : (b - a).dot (-v) = (a - b).dot v := by
  rw [Vec3.dot_neg_right, Vec3.dot_sub_left, Vec3.dot_sub_left]
  ring

/-- The elastic impulse of `collision_handler_system` preserves the combined
momentum of the pair, with no side condition: mass-weighted velocity changes
cancel exactly. -/
theorem resolve_pair_momentum (len : Vec3 → ℚ) (a b : Body) :
    a.mass • (resolveA len a b).vel + b.mass • (resolveB len a b).vel
      = a.mass • a.vel + b.mass • b.vel := by
  rw [resolveA_vel, resolveB_vel, dot_flip_neg, smul_neg, sub_neg_eq_add,
    smul_sub, smul_add, smul_smul, smul_smul]
  have h3 : b.mass * (2 * a.mass / (a.mass + b.mass)
        * ((a.vel - b.vel).dot (a.pos - b.pos) / normSq (a.pos - b.pos)))
      = a.mass * (2 * b.mass / (a.mass + b.mass)
        * ((a.vel - b.vel).dot (a.pos - b.pos) / normSq (a.pos - b.pos))) := by
    ring
  rw [h3]
  abel

/-- The elastic impulse preserves the kinetic energy carried by the velocity
components along the center line. -/
theorem resolve_pair_ke (len : Vec3 → ℚ) (a b : Body)
    (hM : a.mass + b.mass ≠ 0) (hds : normSq (a.pos - b.pos) ≠ 0) :
    a.mass * ((resolveA len a b).vel.dot (a.pos - b.pos)) ^ 2
        / normSq (a.pos - b.pos) / 2
      + b.mass * ((resolveB len a b).vel.dot (a.pos - b.pos)) ^ 2
        / normSq (a.pos - b.pos) / 2
      = a.mass * (a.vel.dot (a.pos - b.pos)) ^ 2 / normSq (a.pos - b.pos) / 2
        + b.mass * (b.vel.dot (a.pos - b.pos)) ^ 2
          / normSq (a.pos - b.pos) / 2 := by
  rw [resolveA_vel, resolveB_vel, dot_flip_neg, smul_neg, sub_neg_eq_add]
  rw [Vec3.dot_sub_left, Vec3.dot_add_left, Vec3.dot_smul_left,
    Vec3.dot_smul_left, dot_self_eq_normSq]
  rw [Vec3.dot_sub_left a.vel b.vel]
  field_simp
  ring

/-- Equal masses colliding head-on along the x-axis exactly swap their
velocities under the elastic impulse. -/
theorem resolve_pair_swap (len : Vec3 → ℚ) (a b : Body)
    (hm : a.mass = b.mass) (hm0 : a.mass ≠ 0) (c s t : ℚ) (hc : c ≠ 0)
    (hv : a.pos - b.pos = ⟨c, 0, 0⟩) (hva : a.vel = ⟨s, 0, 0⟩)
    (hvb : b.vel = ⟨t, 0, 0⟩) :
    (resolveA len a b).vel = b.vel ∧ (resolveB len a b).vel = a.vel := by
  have hb0 : b.mass ≠ 0 := by rw [← hm]; exact hm0
  have hM2 : b.mass + b.mass ≠ 0 := by
    intro hh
    exact hb0 (by linarith)
  constructor
  · rw [resolveA_vel, hv, hva, hvb]
    ext <;> simp [Vec3.dot, normSq, hm] <;> field_simp [hc, hb0, hM2] <;> ring
  · rw [resolveB_vel, hv, hva, hvb]
    ext <;> simp [Vec3.dot, normSq, hm] <;> field_simp [hc, hb0, hM2] <;> ring

/-- C3: resolving a single isolated collision event between bodies at
distinct positions preserves total momentum and the kinetic energy of the
velocity components along the center line; in the equal-mass head-on
special case the two bodies exactly swap velocities. -/
theorem collision_impulse_conservation (len : Vec3 → ℚ) (st : Nat → Body)
    (i j : Nat) (hij : i ≠ j) (hpos : (st i).pos ≠ (st j).pos)
    (hma : 0 < (st i).mass) (hmb : 0 < (st j).mass) :
    ((st i).mass • (resolveCollision len st (i, j) i).vel
        + (st j).mass • (resolveCollision len st (i, j) j).vel
      = (st i).mass • (st i).vel + (st j).mass • (st j).vel)
    ∧ ((st i).mass
          * ((resolveCollision len st (i, j) i).vel.dot
              ((st i).pos - (st j).pos)) ^ 2
          / normSq ((st i).pos - (st j).pos) / 2
        + (st j).mass
          * ((resolveCollision len st (i, j) j).vel.dot
              ((st i).pos - (st j).pos)) ^ 2
          / normSq ((st i).pos - (st j).pos) / 2
      = (st i).mass * ((st i).vel.dot ((st i).pos - (st j).pos)) ^ 2
          / normSq ((st i).pos - (st j).pos) / 2
        + (st j).mass * ((st j).vel.dot ((st i).pos - (st j).pos)) ^ 2
          / normSq ((st i).pos - (st j).pos) / 2)
    ∧ ∀ c s t : ℚ, (st i).mass = (st j).mass
        → (st i).pos - (st j).pos = ⟨c, 0, 0⟩
        → (st i).vel = ⟨s, 0, 0⟩ → (st j).vel = ⟨t, 0, 0⟩
        → (resolveCollision len st (i, j) i).vel = (st j).vel
          ∧ (resolveCollision len st (i, j) j).vel = (st i).vel := by
  have hM : (st i).mass + (st j).mass ≠ 0 := by positivity
  have hds : normSq ((st i).pos - (st j).pos) ≠ 0 := by
    intro h
    exact hpos (sub_eq_zero.mp ((normSq_eq_zero _).mp h))
  rw [resolveCollision_fst len st i j hij, resolveCollision_snd len st i j]
  refine ⟨resolve_pair_momentum len (st i) (st j),
    resolve_pair_ke len (st i) (st j) hM hds, ?_⟩
  intro c s t hm hv hva hvb
  have hc : c ≠ 0 := by
    intro hc0
    apply hpos
    apply sub_eq_zero.mp
    rw [hv, hc0]
    rfl
  exact resolve_pair_swap len (st i) (st j) hm (ne_of_gt hma) c s t hc hv hva hvb

/-- The overlapping equal-mass head-on state: radii 1, separation 3/2 along
the x-axis, opposite unit velocities. -/
def clashSt : Nat → Body :=
  fun k => if k = 0
    then { pos := ⟨3 / 2, 0, 0⟩, vel := ⟨-1, 0, 0⟩, radius := 1, mass := volume 1 }
    else { pos := ⟨0, 0, 0⟩, vel := ⟨1, 0, 0⟩, radius := 1, mass := volume 1 }

/-- Witness for C3 at the overlapping head-on state, separation 3/2. -/
theorem collision_impulse_conservation_witness :
    (clashSt 0).mass • (resolveCollision (fun _ => 3 / 2) clashSt (0, 1) 0).vel
        + (clashSt 1).mass
          • (resolveCollision (fun _ => 3 / 2) clashSt (0, 1) 1).vel
      = (clashSt 0).mass • (clashSt 0).vel
        + (clashSt 1).mass • (clashSt 1).vel :=
  (collision_impulse_conservation (fun _ => 3 / 2) clashSt 0 1
    (by decide) (by norm_num [clashSt, Vec3.ext_iff])
    (by norm_num [clashSt, volume, PI32])
    (by norm_num [clashSt, volume, PI32])).1

/-- The positional correction of `collision_handler_system` always leaves
the pair at separation exactly `radius(a) + radius(b)`: the two position
shifts along the center line sum to the recomputed penetration depth `d`. -/
theorem resolve_separation (len : Vec3 → ℚ) (a b : Body)
    (hr : 0 < len (a.pos - b.pos))
    (hlen : len (a.pos - b.pos) ^ 2 = normSq (a.pos - b.pos)) :
    normSq ((resolveA len a b).pos - (resolveB len a b).pos)
      = (a.radius + b.radius) ^ 2 := by
  have hr0 : len (a.pos - b.pos) ≠ 0 := ne_of_gt hr
  have key : (resolveA len a b).pos - (resolveB len a b).pos
      = ((a.radius + b.radius) / len (a.pos - b.pos)) • (a.pos - b.pos) := by
    rw [resolveA_pos, resolveB_pos]
    set mfr := b.mass / (a.mass + b.mass) with hmfr
    ext <;> simp <;> field_simp <;> ring
  rw [key, normSq_smul, ← hlen]
  field_simp

/-- C4: after the positional correction and write-back of a collision event
between bodies at distinct positions, the separation of the pair is exactly
`radius(a) + radius(b)`; in particular it is at least
`radius(a) + radius(b) - ε` for every `0 ≤ ε`, so the pair no longer
overlaps. -/
theorem collision_depenetration_separation (len : Vec3 → ℚ)
    (st : Nat → Body) (i j : Nat) (hij : i ≠ j)
    (hr : 0 < len ((st i).pos - (st j).pos))
    (hlen : len ((st i).pos - (st j).pos) ^ 2
      = normSq ((st i).pos - (st j).pos)) :
    normSq ((resolveCollision len st (i, j) i).pos
        - (resolveCollision len st (i, j) j).pos)
      = ((st i).radius + (st j).radius) ^ 2
    ∧ ∀ ε : ℚ, 0 ≤ ε → ε ≤ (st i).radius + (st j).radius →
        ((st i).radius + (st j).radius - ε) ^ 2
          ≤ normSq ((resolveCollision len st (i, j) i).pos
              - (resolveCollision len st (i, j) j).pos) := by
  rw [resolveCollision_fst len st i j hij, resolveCollision_snd len st i j]
  have h := resolve_separation len (st i) (st j) hr hlen
  refine ⟨h, ?_⟩
  intro ε hε1 hε2
  rw [h]
  nlinarith

/-- Witness for C4 at the overlapping head-on state, separation 3/2. -/
theorem collision_depenetration_separation_witness :
    normSq ((resolveCollision (fun _ => 3 / 2) clashSt (0, 1) 0).pos
        - (resolveCollision (fun _ => 3 / 2) clashSt (0, 1) 1).pos)
      = ((clashSt 0).radius + (clashSt 1).radius) ^ 2 :=
  (collision_depenetration_separation (fun _ => 3 / 2) clashSt 0 1
    (by decide) (by norm_num)
    (by norm_num [clashSt, normSq, Vec3.dot])).1

/-- C10: the positional correction is applied unconditionally from the depth
recomputed at processing time: even for a pair already separated
(`d < 0` at processing time), the write-back moves the two bodies back
toward each other into exact contact, separation exactly
`radius(a) + radius(b)`, strictly smaller than their current separation. -/
theorem depenetration_unconditional (len : Vec3 → ℚ)
    (st : Nat → Body) (i j : Nat) (hij : i ≠ j)
    (hr : 0 < len ((st i).pos - (st j).pos))
    (hlen : len ((st i).pos - (st j).pos) ^ 2
      = normSq ((st i).pos - (st j).pos))
    (hsep : (st i).radius + (st j).radius < len ((st i).pos - (st j).pos))
    (hrad : 0 < (st i).radius + (st j).radius) :
    normSq ((resolveCollision len st (i, j) i).pos
        - (resolveCollision len st (i, j) j).pos)
      = ((st i).radius + (st j).radius) ^ 2
    ∧ normSq ((resolveCollision len st (i, j) i).pos
        - (resolveCollision len st (i, j) j).pos)
      < normSq ((st i).pos - (st j).pos) := by
  rw [resolveCollision_fst len st i j hij, resolveCollision_snd len st i j]
  have h := resolve_separation len (st i) (st j) hr hlen
  refine ⟨h, ?_⟩
  rw [h, ← hlen]
  nlinarith

/-- Witness for C10 at the two-planet state: distance 10, radii summing
to 2. -/
theorem depenetration_unconditional_witness :
    normSq ((resolveCollision (fun _ => 10) demoSt (0, 1) 0).pos
        - (resolveCollision (fun _ => 10) demoSt (0, 1) 1).pos)
      < normSq ((demoSt 0).pos - (demoSt 1).pos) :=
  (depenetration_unconditional (fun _ => 10) demoSt 0 1
    (by decide) (by norm_num)
    (by norm_num [demoSt, bigBody1, bigBody2, normSq, Vec3.dot])
    (by norm_num [demoSt, bigBody1, bigBody2])
    (by norm_num [demoSt, bigBody1, bigBody2])).2

/-- The three declared constraints hold of every valid schedule. -/
theorem validSchedule_order (s : List Sys) (hs : validSchedule s) :
    orderedBefore s Sys.move Sys.collision
    ∧ orderedBefore s Sys.move Sys.gravity
    ∧ orderedBefore s Sys.collision Sys.handler := by
  have h := hs.2.2.2.2.2.2
  exact ⟨h (Sys.move, Sys.collision) (by simp [declaredOrder]),
    h (Sys.move, Sys.gravity) (by simp [declaredOrder]),
    h (Sys.collision, Sys.handler) (by simp [declaredOrder])⟩

/-- C5: the collision detector visits every unique unordered pair of
distinct bodies exactly once per pass (no duplicates, no self-pairs), and
emits an event for pair (i, j) exactly when the overlap depth
`radius(i) + radius(j) - |position(i) - position(j)|` is positive; the
declared schedule constraints run the motion pass before the detector, so
the positions read are those this step's motion pass produced. -/
theorem collision_detector_pairs :
    (∀ n : Nat, (pairs n).Nodup)
    ∧ (∀ n i j : Nat, (i, j) ∈ pairs n ↔ i < j ∧ j < n)
    ∧ (∀ (len : Vec3 → ℚ) (n : Nat) (st : Nat → Body) (i j : Nat),
        (i, j) ∈ collisionPass len n st
          ↔ (i < j ∧ j < n)
            ∧ 0 < (st i).radius + (st j).radius
                - len ((st i).pos - (st j).pos))
    ∧ ∀ s : List Sys, validSchedule s → orderedBefore s Sys.move Sys.collision := by
  refine ⟨pairs_nodup, fun n i j => mem_pairs n (i, j), ?_, ?_⟩
  · intro len n st i j
    simp only [collisionPass, List.mem_filter, decide_eq_true_eq]
    rw [mem_pairs n (i, j)]
  · intro s hs
    exact (validSchedule_order s hs).1

/-- Witness for C5: the schedule conjunct at the fully sequential
schedule. -/
theorem collision_detector_pairs_witness :
    orderedBefore [Sys.move, Sys.collision, Sys.gravity, Sys.handler]
      Sys.move Sys.collision :=
  collision_detector_pairs.2.2.2
    [Sys.move, Sys.collision, Sys.gravity, Sys.handler] (by decide)

/-- C8 fails on the code as stated: the schedule that runs the collision
resolver before the gravity accumulator satisfies every ordering constraint
declared in `main` (gravity is ordered only after the motion pass, and the
resolver only after the detector), so the resolver is not guaranteed to run
after gravity. -/
theorem resolver_order_not_forced :
    validSchedule [Sys.move, Sys.collision, Sys.handler, Sys.gravity]
    ∧ orderedBefore [Sys.move, Sys.collision, Sys.handler, Sys.gravity]
        Sys.handler Sys.gravity := by
  decide

/-- C8 (amended): within a step the declared constraints force the motion
pass before both the detector and the gravity pass, and the detector before
the resolver; the relative order of the gravity pass and the resolver is not
constrained — valid schedules exist with either order, so the resolver does
not always observe gravity-updated velocities. -/
theorem schedule_order_constraints :
    (∀ s : List Sys, validSchedule s →
      orderedBefore s Sys.move Sys.collision
      ∧ orderedBefore s Sys.move Sys.gravity
      ∧ orderedBefore s Sys.collision Sys.handler)
    ∧ (∃ s : List Sys, validSchedule s
        ∧ orderedBefore s Sys.gravity Sys.handler)
    ∧ ∃ s : List Sys, validSchedule s
        ∧ orderedBefore s Sys.handler Sys.gravity := by
  refine ⟨validSchedule_order, ?_, ?_⟩
  · exact ⟨[Sys.move, Sys.collision, Sys.gravity, Sys.handler], by decide⟩
  · exact ⟨[Sys.move, Sys.collision, Sys.handler, Sys.gravity], by decide⟩

/-- Witness for the amended C8 at the fully sequential schedule. -/
theorem schedule_order_constraints_witness :
    orderedBefore [Sys.move, Sys.collision, Sys.gravity, Sys.handler]
      Sys.move Sys.gravity :=
  (schedule_order_constraints.1
    [Sys.move, Sys.collision, Sys.gravity, Sys.handler] (by decide)).2.1

/-- C6: for exactly the two setup planets (radius 1, mass 4·π/3 ≈ 4.18879,
positions (0, 5, 0) and (0, -5, 0), velocities (-0.75, 0, 0) and
(0.75, 0, 0)) with `G = 1` and `dt = 1`, one gravity pass leaves the x and z
velocity components unchanged and pulls the y components together by
≈ 0.041888 each, and the detection pass emits no collision event
(distance 10, radii summing to 2). -/
theorem two_body_gravity_case (len : Vec3 → ℚ) (hlen : len ⟨0, 10, 0⟩ = 10) :
    (gravityPass len 1 1 2 demoSt 0).vel.x = -(3 / 4)
    ∧ (gravityPass len 1 1 2 demoSt 0).vel.z = 0
    ∧ |(gravityPass len 1 1 2 demoSt 0).vel.y + 41888 / 1000000|
        < 1 / 1000000
    ∧ (gravityPass len 1 1 2 demoSt 1).vel.x = 3 / 4
    ∧ (gravityPass len 1 1 2 demoSt 1).vel.z = 0
    ∧ |(gravityPass len 1 1 2 demoSt 1).vel.y - 41888 / 1000000|
        < 1 / 1000000
    ∧ bigBody1.mass = 4 * PI32 / 3
    ∧ |bigBody1.mass - 418879 / 100000| < 1 / 100000
    ∧ collisionPass len 2 demoSt = [] := by
  have hp : pairs 2 = [(0, 1)] := by decide
  have hd0 : demoSt 0 = bigBody1 := rfl
  have hd1 : demoSt 1 = bigBody2 := rfl
  have hstep : ∀ k, gravityPass len 1 1 2 demoSt k
      = gravityPairUpdate len 1 1 demoSt 0 1 k := by
    intro k
    unfold gravityPass
    rw [hp]
    rfl
  have h01 : (0 : Nat) ≠ 1 := by decide
  refine ⟨?_, ?_, ?_, ?_, ?_, ?_, ?_, ?_, ?_⟩
  · rw [hstep 0, gravityPairUpdate_fst len 1 1 demoSt 0 1 h01, hd0, hd1,
      gravityA_vel]
    norm_num [bigBody1, bigBody2, gravityDelta, hlen, volume, PI32]
  · rw [hstep 0, gravityPairUpdate_fst len 1 1 demoSt 0 1 h01, hd0, hd1,
      gravityA_vel]
    norm_num [bigBody1, bigBody2, gravityDelta, hlen, volume, PI32]
  · rw [hstep 0, gravityPairUpdate_fst len 1 1 demoSt 0 1 h01, hd0, hd1,
      gravityA_vel, abs_lt]
    constructor <;> norm_num [bigBody1, bigBody2, gravityDelta, hlen, volume, PI32]
  · rw [hstep 1, gravityPairUpdate_snd len 1 1 demoSt 0 1, hd0, hd1,
      gravityB_vel]
    norm_num [bigBody1, bigBody2, gravityDelta, hlen, volume, PI32]
  · rw [hstep 1, gravityPairUpdate_snd len 1 1 demoSt 0 1, hd0, hd1,
      gravityB_vel]
    norm_num [bigBody1, bigBody2, gravityDelta, hlen, volume, PI32]
  · rw [hstep 1, gravityPairUpdate_snd len 1 1 demoSt 0 1, hd0, hd1,
      gravityB_vel, abs_lt]
    constructor <;> norm_num [bigBody1, bigBody2, gravityDelta, hlen, volume, PI32]
  · norm_num [bigBody1, volume]
  · rw [abs_lt]
    constructor <;> norm_num [bigBody1, volume, PI32]
  · unfold collisionPass
    rw [hp]
    norm_num [demoSt, bigBody1, bigBody2, hlen]

/-- Witness for C6 with the oracle that returns the true distance 10. -/
theorem two_body_gravity_case_witness :
    (gravityPass (fun _ => 10) 1 1 2 demoSt 0).vel.x = -(3 / 4) :=
  (two_body_gravity_case (fun _ => 10) rfl).1

/-- Two bodies at the identical position (1, 2, 3). -/
def coincidentSt : Nat → Body :=
  fun k => if k = 0
    then { pos := ⟨1, 2, 3⟩, vel := ⟨-1, 0, 0⟩, radius := 1, mass := volume 1 }
    else { pos := ⟨1, 2, 3⟩, vel := ⟨1, 0, 0⟩, radius := 1, mass := volume 1 }

/-- C7 fails on the code: for a pair of bodies at identical positions,
neither `gravity_system` nor `collision_handler_system` skips or clamps the
pair; both evaluate `v.normalize()` (and the resolver also divides by
`v.length_squared()`) at `v = 0`, which in `f32` produces NaN that is
written into the velocities and positions.  The checked embeddings return
`none` (no numeric result) exactly there. -/
theorem coincident_positions_nan :
    gravityPairUpdateChecked (fun _ => 0) 1 1 coincidentSt 0 1 = none
    ∧ resolveCollisionChecked (fun _ => 0) coincidentSt (0, 1) = none := by
  constructor
  · unfold gravityPairUpdateChecked
    norm_num [coincidentSt, normSq, Vec3.dot]
  · unfold resolveCollisionChecked
    norm_num [coincidentSt, normSq, Vec3.dot]

@[simp] theorem smallBody_radius (rand : Nat → ℚ) (k : Nat) :
    (smallBody rand k).radius = 1 / 100 + 1 / 10 * rand (7 * k) := rfl

@[simp] theorem smallBody_mass (rand : Nat → ℚ) (k : Nat) :
    (smallBody rand k).mass = volume (1 / 100 + 1 / 10 * rand (7 * k)) := rfl

theorem volume_pos (r : ℚ) (hr : 0 < r) : 0 < volume r := by
  have h3 := pow_pos hr 3
  have hpi : 0 < PI32 := by norm_num [PI32]
  unfold volume
  positivity

theorem gravityPairUpdate_rm (len : Vec3 → ℚ) (G dt : ℚ) (st : Nat → Body)
    (i j k : Nat) :
    (gravityPairUpdate len G dt st i j k).radius = (st k).radius
    ∧ (gravityPairUpdate len G dt st i j k).mass = (st k).mass := by
  unfold gravityPairUpdate
  rcases eq_or_ne k j with rfl | hkj
  · simp
  · rw [Function.update_noteq hkj]
    rcases eq_or_ne k i with rfl | hki
    · simp
    · rw [Function.update_noteq hki]
      exact ⟨rfl, rfl⟩

theorem resolveCollision_rm (len : Vec3 → ℚ) (st : Nat → Body)
    (e : Nat × Nat) (k : Nat) :
    (resolveCollision len st e k).radius = (st k).radius
    ∧ (resolveCollision len st e k).mass = (st k).mass := by
  unfold resolveCollision
  rcases eq_or_ne k e.2 with rfl | hk2
  · simp
  · rw [Function.update_noteq hk2]
    rcases eq_or_ne k e.1 with rfl | hk1
    · simp
    · rw [Function.update_noteq hk1]
      exact ⟨rfl, rfl⟩

theorem foldl_radius_mass {α : Type} (f : (Nat → Body) → α → Nat → Body)
    (hf : ∀ st a k, (f st a k).radius = (st k).radius
      ∧ (f st a k).mass = (st k).mass) :
    ∀ (l : List α) (st : Nat → Body) (k : Nat),
      (l.foldl f st k).radius = (st k).radius
      ∧ (l.foldl f st k).mass = (st k).mass := by
  intro l
  induction l with
  | nil => intro st k; exact ⟨rfl, rfl⟩
  | cons a t ih =>
    intro st k
    rw [List.foldl_cons]
    exact ⟨((ih (f st a) k).1).trans (hf st a k).1,
      ((ih (f st a) k).2).trans (hf st a k).2⟩

/-- C9: every body created by setup has positive radius, mass derived as
`(4/3)·π·radius³` of the creation-time radius, and positive mass; and none
of the mutating passes (motion, gravity, collision resolution) ever changes
any body's radius or mass.  The detector emits events and writes no body
state at all. -/
theorem mass_radius_invariants :
    (∀ (rand : Nat → ℚ) (n : Nat), (∀ s2, 0 ≤ rand s2) →
      ∀ b ∈ setupBodies rand n,
        0 < b.radius ∧ b.mass = 4 * PI32 * b.radius ^ 3 / 3 ∧ 0 < b.mass)
    ∧ (∀ (dt : ℚ) (st : Nat → Body) (k : Nat),
        (movePass dt st k).radius = (st k).radius
        ∧ (movePass dt st k).mass = (st k).mass)
    ∧ (∀ (len : Vec3 → ℚ) (G dt : ℚ) (n : Nat) (st : Nat → Body) (k : Nat),
        (gravityPass len G dt n st k).radius = (st k).radius
        ∧ (gravityPass len G dt n st k).mass = (st k).mass)
    ∧ ∀ (len : Vec3 → ℚ) (st : Nat → Body) (events : List (Nat × Nat))
        (k : Nat),
        (collisionHandlerPass len st events k).radius = (st k).radius
        ∧ (collisionHandlerPass len st events k).mass = (st k).mass := by
  refine ⟨?_, ?_, ?_, ?_⟩
  · intro rand n hrand b hb
    simp only [setupBodies, List.mem_cons, List.mem_map, List.mem_range] at hb
    rcases hb with rfl | rfl | ⟨k, _, rfl⟩
    · refine ⟨by norm_num [bigBody1], by norm_num [bigBody1, volume], ?_⟩
      exact volume_pos 1 (by norm_num)
    · refine ⟨by norm_num [bigBody2], by norm_num [bigBody2, volume], ?_⟩
      exact volume_pos 1 (by norm_num)
    · have hk := hrand (7 * k)
      have hrpos : 0 < 1 / 100 + 1 / 10 * rand (7 * k) := by linarith
      refine ⟨by simpa using hrpos, by simp [volume], ?_⟩
      simpa using volume_pos _ hrpos
  · intro dt st k
    exact ⟨rfl, rfl⟩
  · intro len G dt n st k
    exact foldl_radius_mass _
      (fun st2 p k2 => gravityPairUpdate_rm len G dt st2 p.1 p.2 k2)
      (pairs n) st k
  · intro len st events k
    exact foldl_radius_mass _
      (fun st2 e k2 => resolveCollision_rm len st2 e k2) events st k

/-- Witness for C9: the setup invariants at the first planet with the zero
random stream and no small bodies. -/
theorem mass_radius_invariants_witness :
    0 < bigBody1.radius
    ∧ bigBody1.mass = 4 * PI32 * bigBody1.radius ^ 3 / 3
    ∧ 0 < bigBody1.mass :=
  mass_radius_invariants.1 (fun _ => 0) 0 (fun _ => le_refl 0) bigBody1
    (by simp [setupBodies])

end NewtonSim
